import Mathlib

/-!
Shallow embedding of `src/password.py` (PyPass).

The script defines an abstract `CharClass` with four concrete subclasses
(`AlphaLower`, `AlphaUpper`, `NumberDigit`, `Symbol`), a registry
`ClassMgr` whose `get_all_chars` joins the characters of every registered
class whose `state` flag is true, a module-level dict `char_classes` of
pre-instantiated classes, and a `main` that parses `store_true` CLI flags
(one per class, with `default=char_classes[k].state`) and registers the
module-level instance for every destination whose parsed value is true,
then prints `get_all_chars()`.

Each Python class instance is a pair of its class (a closed kind, since the
subclass set is fixed) and its mutable `_state` boolean; methods that only
read state are pure functions, and `get_all_chars` is additionally given as
an explicit state transformer to express that it leaves the registry
unchanged.
-/

namespace PyPass

/-- Python `string.ascii_lowercase`. -/
def ascii_lowercase : String := "abcdefghijklmnopqrstuvwxyz"

/-- Python `string.ascii_uppercase`. -/
def ascii_uppercase : String := "ABCDEFGHIJKLMNOPQRSTUVWXYZ"

/-- Python `string.digits`. -/
def digits : String := "0123456789"

/-- Python `string.punctuation`: the 32 ASCII characters with codes
33-47, 58-64, 91-96 and 123-126, in code order. -/
def punctuation : String :=
  String.mk ((List.range' 33 15 ++ List.range' 58 7 ++
              List.range' 91 6 ++ List.range' 123 4).map Char.ofNat)

/-- The four concrete subclasses of `CharClass` defined in the script. -/
inductive ClassKind
| AlphaLower
| AlphaUpper
| NumberDigit
| Symbol
deriving DecidableEq

/-- Return value of each subclass's `default_state` method. -/
def ClassKind.default_state : ClassKind → Bool
| ClassKind.AlphaLower => true
| ClassKind.AlphaUpper => true
| ClassKind.NumberDigit => true
| ClassKind.Symbol => false

/-- Return value of each subclass's `get_chars` method; none of them reads
the instance's `_state`. -/
def ClassKind.get_chars : ClassKind → String
| ClassKind.AlphaLower => ascii_lowercase
| ClassKind.AlphaUpper => ascii_uppercase
| ClassKind.NumberDigit => digits
| ClassKind.Symbol => punctuation

/-- Return value of each subclass's `name` property. -/
def ClassKind.className : ClassKind → String
| ClassKind.AlphaLower => "Lowercase Alphabetic"
| ClassKind.AlphaUpper => "Uppercase Alphabetic"
| ClassKind.NumberDigit => "Numerical Digits"
| ClassKind.Symbol => "Symbols"

/-- An instance of a `CharClass` subclass: its class together with the
mutable `_state` field written by `__init__` and the `state` setter. -/
structure CharClass where
  kind : ClassKind
  state : Bool
deriving DecidableEq

/-- A constructor call such as `AlphaLower()`: `CharClass.__init__` sets
`self.state = self.default_state()`. -/
def CharClass.new (k : ClassKind) : CharClass := ⟨k, k.default_state⟩

/-- The `get_chars` method on an instance: dispatches on the class and
ignores `_state`. -/
def CharClass.get_chars (c : CharClass) : String := c.kind.get_chars

/-- The `state` property setter: overwrite `_state`. -/
def CharClass.set_state (c : CharClass) (b : Bool) : CharClass := ⟨c.kind, b⟩

/-- The `ClassMgr` registry: `__init__` creates the ordered list
`_char_classes`, initially empty. -/
structure ClassMgr where
  _char_classes : List CharClass
deriving DecidableEq

/-- A `ClassMgr()` constructor call. -/
def ClassMgr.new : ClassMgr := ⟨[]⟩

/-- The `register` method: append the class to `_char_classes`. -/
def ClassMgr.register (m : ClassMgr) (c : CharClass) : ClassMgr :=
  ⟨m._char_classes ++ [c]⟩

/-- The `get_all_chars` method: join of `get_chars()` over the registered
classes whose `state` is true, in registration order. -/
def ClassMgr.get_all_chars (m : ClassMgr) : String :=
  String.join ((m._char_classes.filter (fun c => c.state)).map CharClass.get_chars)

/-- The `get_all_chars` method as a state transformer on the registry: its
body only reads `self`, so the returned registry is the input one. -/
def ClassMgr.get_all_chars_run (m : ClassMgr) : String × ClassMgr :=
  (String.join ((m._char_classes.filter (fun c => c.state)).map CharClass.get_chars), m)

/-- The classmethod `ClassMgr.default`: a fresh registry with the four
classes registered in the fixed order lower, upper, digit, symbol. -/
def ClassMgr.default : ClassMgr :=
  ClassMgr.new.register (CharClass.new ClassKind.AlphaLower)
    |>.register (CharClass.new ClassKind.AlphaUpper)
    |>.register (CharClass.new ClassKind.NumberDigit)
    |>.register (CharClass.new ClassKind.Symbol)

/-- Caller-side toggling of the registered classes: assign each one's
`state` through the setter according to `f` on its class. -/
def ClassMgr.set_states (m : ClassMgr) (f : ClassKind → Bool) : ClassMgr :=
  ⟨m._char_classes.map (fun c => c.set_state (f c.kind))⟩

/-- The module-level dict `char_classes`: each value is a freshly
constructed instance of the class for its key. -/
def char_classes (k : ClassKind) : CharClass := CharClass.new k

/-- Insertion order of the `char_classes` dict, which is both the order in
which `parser()` adds arguments and the iteration order of `vars(args)`
in `main`. -/
def char_classes_order : List ClassKind :=
  [ClassKind.AlphaLower, ClassKind.AlphaUpper, ClassKind.NumberDigit, ClassKind.Symbol]

/-- The four CLI destinations (`dest=char_cls`), one boolean each:
true when the flag appears on the command line. -/
structure Flags where
  lower : Bool
  upper : Bool
  digit : Bool
  symbol : Bool
deriving DecidableEq

/-- Attribute lookup on the parsed namespace, per destination. -/
def Flags.val (a : Flags) : ClassKind → Bool
| ClassKind.AlphaLower => a.lower
| ClassKind.AlphaUpper => a.upper
| ClassKind.NumberDigit => a.digit
| ClassKind.Symbol => a.symbol

/-- Semantics of `parser().parse_args()`: each argument is `store_true`
with `default=char_classes[k].state`, so the parsed value is true iff the
flag was passed or the module-level instance's state is true. -/
def parse_args (passed : Flags) : Flags :=
  ⟨passed.lower || (char_classes ClassKind.AlphaLower).state,
   passed.upper || (char_classes ClassKind.AlphaUpper).state,
   passed.digit || (char_classes ClassKind.NumberDigit).state,
   passed.symbol || (char_classes ClassKind.Symbol).state⟩

/-- The body of `main()`: parse the flags, register the module-level
instance for every destination whose parsed value is true (in dict order),
and return the string handed to `print` (the output line, without the
trailing newline added by `print`). -/
def main_output (passed : Flags) : String :=
  (char_classes_order.foldl
    (fun m k => if (parse_args passed).val k then m.register (char_classes k) else m)
    ClassMgr.new).get_all_chars

/-- Joining a list of strings with one more string appended at the end. -/
lemma join_concat (l : List String) (s : String) :
    String.join (l ++ [s]) = String.join l ++ s := by
  simp [String.join, List.foldl_append]

/-- Appending the empty string on the right is the identity. -/
lemma str_append_empty (s : String) : s ++ "" = s :=
  String.ext (by simp [String.data_append])

/-- String concatenation is associative. -/
lemma str_append_assoc (a b c : String) : a ++ b ++ c = a ++ (b ++ c) :=
  String.ext (by simp [String.data_append])

/-- Effect of one `register` call on the aggregate: the new class's
characters are appended exactly when its state is true. -/
lemma register_step (m : ClassMgr) (c : CharClass) :
    (m.register c).get_all_chars
      = m.get_all_chars ++ (if c.state then c.get_chars else "") := by
  cases hc : c.state with
  | true =>
      simp [ClassMgr.register, ClassMgr.get_all_chars, List.filter_append, hc,
            join_concat]
  | false =>
      simp [ClassMgr.register, ClassMgr.get_all_chars, List.filter_append, hc,
            str_append_empty]

/-- Whatever flags are passed, `main` prints lowercase, uppercase and digit
characters and nothing else: the three always-true parsed defaults register
the lower/upper/digit instances, and the symbol instance, registered or
not, is dropped by `get_all_chars` because its state is false. -/
lemma main_output_eq (passed : Flags) :
    main_output passed = ascii_lowercase ++ ascii_uppercase ++ digits := by
  obtain ⟨l, u, d, s⟩ := passed
  cases l <;> cases u <;> cases d <;> cases s <;> decide

/-- Claim C1: invoking the program with the `--symbol` flag alone does NOT
print the punctuation string; the printed line is
`ascii_lowercase ++ ascii_uppercase ++ digits`. `main` registers the
module-level `Symbol` instance but never sets its state, which stays false,
so `get_all_chars` excludes its characters, and the `store_true` flags for
lower/upper/digit default to true so those classes cannot be disabled. -/
theorem symbol_alone_still_prints_letters_digits :
    main_output ⟨false, false, false, true⟩
        = ascii_lowercase ++ ascii_uppercase ++ digits ∧
    main_output ⟨false, false, false, true⟩ ≠ punctuation := by
  constructor
  · decide
  · decide

/-- Claim C2: for every combination of CLI flags, the characters of each
class enabled by default (lower, upper, digit) appear in the printed
output; a default-enabled class cannot be disabled via the CLI. -/
theorem default_enabled_classes_always_included (passed : Flags) :
    ascii_lowercase.data <:+: (main_output passed).data ∧
    ascii_uppercase.data <:+: (main_output passed).data ∧
    digits.data <:+: (main_output passed).data := by
  rw [main_output_eq passed]
  exact ⟨⟨[], (ascii_uppercase ++ digits).data, by decide⟩,
         ⟨ascii_lowercase.data, digits.data, by decide⟩,
         ⟨(ascii_lowercase ++ ascii_uppercase).data, [], by decide⟩⟩

/-- Claim C3: any two flag combinations make `main` print the identical
string, always equal to `ascii_lowercase ++ ascii_uppercase ++ digits`:
the flags have no influence on the output. -/
theorem output_independent_of_flags (p q : Flags) :
    main_output p = main_output q ∧
    main_output p = ascii_lowercase ++ ascii_uppercase ++ digits :=
  ⟨(main_output_eq p).trans (main_output_eq q).symm, main_output_eq p⟩

/-- Claim C4: for the default registry, `get_all_chars` is the
concatenation lowercase then uppercase then digits, of length 62, with
every punctuation character excluded. -/
theorem default_registry_aggregate :
    ClassMgr.default.get_all_chars = ascii_lowercase ++ ascii_uppercase ++ digits ∧
    ClassMgr.default.get_all_chars.length = 62 ∧
    ∀ ch ∈ punctuation.data, ch ∉ ClassMgr.default.get_all_chars.data := by
  refine ⟨by decide, by decide, by decide⟩

/-- Claim C5: the default registry with only the symbol class's state set
true (the others false) aggregates to exactly the punctuation string, whose
32 characters are pairwise distinct, so its length is its size as a set. -/
theorem only_symbol_enabled_aggregate :
    (ClassMgr.default.set_states (fun k =>
        match k with
        | ClassKind.Symbol => true
        | _ => false)).get_all_chars = punctuation ∧
    (ClassMgr.default.set_states (fun k =>
        match k with
        | ClassKind.Symbol => true
        | _ => false)).get_all_chars.length = 32 ∧
    punctuation.length = 32 ∧
    punctuation.data.Nodup := by
  refine ⟨by decide, by decide, by decide, by decide⟩

/-- Claim C6: for every subset of the default registry's classes enabled,
the aggregate is the fixed-order concatenation lower, upper, digit, symbol
of the enabled classes' characters: toggling states never reorders it. -/
theorem aggregate_order_fixed (l u d s : Bool) :
    (ClassMgr.default.set_states (fun k =>
        match k with
        | ClassKind.AlphaLower => l
        | ClassKind.AlphaUpper => u
        | ClassKind.NumberDigit => d
        | ClassKind.Symbol => s)).get_all_chars
      = (if l then ascii_lowercase else "") ++ (if u then ascii_uppercase else "")
        ++ (if d then digits else "") ++ (if s then punctuation else "") := by
  cases l <;> cases u <;> cases d <;> cases s <;> decide

/-- Claim C7: for every registry in which no registered class's state is
true, including the empty registry, `get_all_chars` returns the empty
string (it is a total function; no error is possible). -/
theorem no_enabled_empty_aggregate (m : ClassMgr)
    (h : ∀ c ∈ m._char_classes, c.state = false) :
    m.get_all_chars = "" := by
  have hf : m._char_classes.filter (fun c => c.state) = [] := by
    rw [List.filter_eq_nil_iff]
    intro c hc
    simp [h c hc]
  simp [ClassMgr.get_all_chars, hf, String.join]

/-- Witness for claim C7 at a concrete all-disabled registry: the default
registry with every state set to false. -/
theorem no_enabled_empty_aggregate_witness :
    (∀ c ∈ (ClassMgr.default.set_states (fun _ => false))._char_classes,
        c.state = false) ∧
    (ClassMgr.default.set_states (fun _ => false)).get_all_chars = "" :=
  ⟨by decide, no_enabled_empty_aggregate (ClassMgr.default.set_states (fun _ => false)) (by decide)⟩

/-- Claim C8: `get_all_chars` is a pure read: run twice in a row it
returns the same string, and each call leaves the registry, hence every
class's state flag, unchanged; its result agrees with the direct
function. -/
theorem get_all_chars_idempotent_pure (m : ClassMgr) :
    (m.get_all_chars_run).1 = ((m.get_all_chars_run).2.get_all_chars_run).1 ∧
    (m.get_all_chars_run).2 = m ∧
    (m.get_all_chars_run).2._char_classes.map CharClass.state
      = m._char_classes.map CharClass.state ∧
    (m.get_all_chars_run).1 = m.get_all_chars :=
  ⟨rfl, rfl, rfl, rfl⟩

/-- Claim C9: on every instance, `get_chars` depends only on the class,
never on the state flag, and for each of the four classes it is a fixed
non-empty string without duplicate characters. -/
theorem get_chars_fixed_nonempty_nodup (c : CharClass) :
    c.get_chars = c.kind.get_chars ∧
    c.kind.get_chars ≠ "" ∧
    c.kind.get_chars.data.Nodup := by
  have h : ∀ k : ClassKind, k.get_chars ≠ "" ∧ k.get_chars.data.Nodup := by
    intro k
    cases k <;> exact ⟨by decide, by decide⟩
  exact ⟨rfl, (h c.kind).1, (h c.kind).2⟩

/-- Claim C10: `register` appends, so the aggregate after registering `c`
is the old aggregate followed by `c`'s characters exactly when its state is
true; there is no deduplication, so registering the same class twice makes
its characters appear twice. -/
theorem register_append_spec (m : ClassMgr) (c : CharClass) :
    (m.register c).get_all_chars
      = m.get_all_chars ++ (if c.state then c.get_chars else "") ∧
    ((m.register c).register c).get_all_chars
      = m.get_all_chars ++ ((if c.state then c.get_chars else "")
          ++ (if c.state then c.get_chars else "")) := by
  refine ⟨register_step m c, ?_⟩
  rw [register_step, register_step, str_append_assoc]

end PyPass
